import Mathlib

/-!
Shallow embedding of the boids simulation core (src/boids.rs together with the
`Parameters` struct of src/lib.rs): the spatial grid `populate_grid` and the
per-frame state update `update_boids`.

Modelling conventions:
* `f32` is modelled by `ℚ`; `f32::sqrt` is passed to the update as an explicit
  function parameter `sqrtf : ℚ → ℚ` (exact square roots leave `ℚ`), with
  `ratSqrt` as a concrete executable instance that is exact on perfect squares.
* The thread-local random generator created in each parallel task is modelled
  as an oracle stream `rng : ℕ → ℚ × ℚ` giving, per boid slot, the two draws
  consumed by the zero-speed nudge.
* Machine-integer casts keep their sign behaviour: `f32 as u32` truncates
  toward zero and saturates negatives to `0`; the finite 32-bit width is elided
  together with `f32` finiteness, except for the `u32` subtractions
  `width - margin` / `height - margin`, which are modelled exactly (wrapping
  `u32wsub` for release builds, checked `u32csub` for overflow-checked builds).
* The rayon `par_iter().map(..).collect()` over `enumerate()` is modelled as a
  sequential index-carrying recursion (`computeStates`) over the snapshot; the
  commit loop writing `new_boid_states[i]` back into slot `i` is `zipWith`.
-/

/-- Mirrors `struct Boid` (src/boids.rs lines 10-20); the `Rgb<u8>` colour is
an opaque byte triple. -/
structure Boid where
  id : ℕ
  x : ℚ
  y : ℚ
  xv : ℚ
  yv : ℚ
  current_speed : ℚ
  colour : ℕ × ℕ × ℕ
deriving Repr, DecidableEq

/-- Default boid used for (total) list indexing, mirroring `boids[i]`. -/
def dB : Boid := ⟨0, 0, 0, 0, 0, 0, (0, 0, 0)⟩

instance : Inhabited Boid := ⟨dB⟩

/-- Default emitted state tuple, used only as a `getD` fallback. -/
def s0 : ℚ × ℚ × ℚ × ℚ × ℚ := (0, 0, 0, 0, 0)

/-- Mirrors `struct Parameters` (src/lib.rs lines 3-16). -/
structure Parameters where
  max_speed : ℚ
  min_speed : ℚ
  margin : ℕ
  visible_range : ℚ
  protected_range : ℚ
  avoid_factor : ℚ
  matching_factor : ℚ
  centering_factor : ℚ
  turn_factor : ℚ
  cell_size : ℚ
  draw_radius : ℤ
deriving Repr, DecidableEq

/-- Rust `f32 as u32`: truncation toward zero with negative values saturating
to `0` (for non-negative arguments truncation coincides with the floor; the
32-bit upper width is elided, see the module comment). -/
def ratAsU32 (q : ℚ) : ℕ := (⌊q⌋).toNat

/-- Rust release-mode `u32` wrapping subtraction `a - b`. -/
def u32wsub (a b : ℕ) : ℕ := (((a : ℤ) - (b : ℤ)) % (2 ^ 32)).toNat

/-- Rust overflow-checked `u32` subtraction: `none` models the debug-build
panic on underflow. -/
def u32csub (a b : ℕ) : Option ℕ := if b ≤ a then some (a - b) else none

/-- Cell coordinate of a position: `((x / cell_size).floor() as u32,
(y / cell_size).floor() as u32)` (src/boids.rs lines 47-48). -/
def cellOf (cs x y : ℚ) : ℕ × ℕ := ((⌊x / cs⌋).toNat, (⌊y / cs⌋).toNat)

/-- The `HashMap<(u32, u32), Vec<usize>>` grid, modelled as an association
list with unique keys (only `get`-style lookups are performed on it). -/
abbrev Grid := List ((ℕ × ℕ) × List ℕ)

/-- `grid.entry(key).or_default().push(index)`: append `i` to the bucket of
`k`, creating the bucket if absent. -/
def gridInsert : Grid → ℕ × ℕ → ℕ → Grid
  | [], k, i => [(k, [i])]
  | (k', l) :: rest, k, i =>
      if k' = k then (k', l ++ [i]) :: rest else (k', l) :: gridInsert rest k i

/-- `grid.get(&key)`, with the missing-key case collapsed to the empty bucket
(the code only iterates the bucket, so `None` and an empty list coincide). -/
def gridGet : Grid → ℕ × ℕ → List ℕ
  | [], _ => []
  | (k', l) :: rest, k => if k' = k then l else gridGet rest k

/-- The `for (index, boid) in boids.iter().enumerate()` loop body of
`populate_grid`, with the running enumeration index made explicit. -/
def populate_grid_aux (cs : ℚ) : List Boid → ℕ → Grid → Grid
  | [], _, g => g
  | b :: rest, i, g => populate_grid_aux cs rest (i + 1) (gridInsert g (cellOf cs b.x b.y) i)

/-- Mirrors `populate_grid` (src/boids.rs lines 44-52). -/
def populate_grid (boids : List Boid) (cell_size : ℚ) : Grid :=
  populate_grid_aux cell_size boids 0 []

/-- The seven mutable accumulators of the neighbor scan
(src/boids.rs lines 65-71). -/
structure ScanAcc where
  xpos_avg : ℚ
  ypos_avg : ℚ
  xvel_avg : ℚ
  yvel_avg : ℚ
  neighboring_boids : ℕ
  close_dx : ℚ
  close_dy : ℚ
deriving Repr, DecidableEq

/-- All accumulators start at zero (src/boids.rs lines 65-71). -/
def accInit : ScanAcc := ⟨0, 0, 0, 0, 0, 0, 0⟩

/-- Processing of one candidate neighbor (src/boids.rs lines 88-105): box
pre-filter on both axes, then the squared-distance dispatch into either the
separation accumulator or the alignment/cohesion sums. -/
def scanStep (p : Parameters) (b : Boid) (acc : ScanAcc) (other : Boid) : ScanAcc :=
  let dx := b.x - other.x
  let dy := b.y - other.y
  if |dx| < p.visible_range ∧ |dy| < p.visible_range then
    let squared_distance := dx * dx + dy * dy
    if squared_distance < p.protected_range * p.protected_range then
      { acc with close_dx := acc.close_dx + dx, close_dy := acc.close_dy + dy }
    else if squared_distance < p.visible_range * p.visible_range then
      { acc with
        xpos_avg := acc.xpos_avg + other.x
        ypos_avg := acc.ypos_avg + other.y
        xvel_avg := acc.xvel_avg + other.xv
        yvel_avg := acc.yvel_avg + other.yv
        neighboring_boids := acc.neighboring_boids + 1 }
    else acc
  else acc

/-- The `for otherboid_idx in near_boids` loop over one bucket
(src/boids.rs lines 82-106), skipping the boid's own slot index. -/
def scanCell (p : Parameters) (boids : List Boid) (boid_idx : ℕ) (b : Boid)
    (acc : ScanAcc) (near : List ℕ) : ScanAcc :=
  near.foldl (fun a idx => if idx = boid_idx then a else scanStep p b a (boids.getD idx dB)) acc

/-- The nested `for x_offset in -1..=1 { for y_offset in -1..=1 { .. } }`
offset pairs, in loop order (src/boids.rs lines 75-76). -/
def neighborOffsets : List (ℤ × ℤ) :=
  [(-1, -1), (-1, 0), (-1, 1), (0, -1), (0, 0), (0, 1), (1, -1), (1, 0), (1, 1)]

/-- The whole 3x3-cell neighbor scan of one boid (src/boids.rs lines 73-110):
cells with a negative coordinate on either axis are skipped, the remaining
keys are looked up in the grid and their buckets folded through `scanCell`. -/
def scanAll (p : Parameters) (grid : Grid) (boids : List Boid) (boid_idx : ℕ) (b : Boid) : ScanAcc :=
  let boid_cell_x : ℤ := ⌊b.x / p.cell_size⌋
  let boid_cell_y : ℤ := ⌊b.y / p.cell_size⌋
  neighborOffsets.foldl
    (fun acc o =>
      let new_x := boid_cell_x + o.1
      let new_y := boid_cell_y + o.2
      if 0 ≤ new_x ∧ 0 ≤ new_y then
        scanCell p boids boid_idx b acc (gridGet grid (new_x.toNat, new_y.toNat))
      else acc)
    accInit

/-- Cohesion/alignment averaging plus the separation term
(src/boids.rs lines 111-126), producing the force-updated velocity. -/
def forceVelocity (p : Parameters) (b : Boid) (acc : ScanAcc) : ℚ × ℚ :=
  let n : ℚ := (acc.neighboring_boids : ℚ)
  let vx :=
    if 0 < acc.neighboring_boids then
      b.xv + ((acc.xpos_avg / n - b.x) * p.centering_factor
        + (acc.xvel_avg / n - b.xv) * p.matching_factor)
    else b.xv
  let vy :=
    if 0 < acc.neighboring_boids then
      b.yv + ((acc.ypos_avg / n - b.y) * p.centering_factor
        + (acc.yvel_avg / n - b.yv) * p.matching_factor)
    else b.yv
  (vx + acc.close_dx * p.avoid_factor, vy + acc.close_dy * p.avoid_factor)

/-- Boundary turning (src/boids.rs lines 128-140), with the `u32`
subtractions `height - margin` / `width - margin` in release (wrapping)
semantics; check order as in the source: top, right, left, bottom. -/
def boundaryTurn (p : Parameters) (height width : ℕ) (b : Boid) (v : ℚ × ℚ) : ℚ × ℚ :=
  let vy := if ((u32wsub height p.margin : ℕ) : ℚ) < b.y then v.2 - p.turn_factor else v.2
  let vx := if ((u32wsub width p.margin : ℕ) : ℚ) < b.x then v.1 - p.turn_factor else v.1
  let vx := if b.x < (p.margin : ℚ) then vx + p.turn_factor else vx
  let vy := if b.y < (p.margin : ℚ) then vy + p.turn_factor else vy
  (vx, vy)

/-- Boundary turning with the two `u32` subtractions overflow-checked:
`none` models the debug-build panic when `margin` exceeds the dimension
(src/boids.rs lines 129 and 132). -/
def boundaryTurnChecked (p : Parameters) (height width : ℕ) (b : Boid) (v : ℚ × ℚ) :
    Option (ℚ × ℚ) :=
  match u32csub height p.margin with
  | none => none
  | some hm =>
    let vy := if ((hm : ℕ) : ℚ) < b.y then v.2 - p.turn_factor else v.2
    match u32csub width p.margin with
    | none => none
    | some wm =>
      let vx := if ((wm : ℕ) : ℚ) < b.x then v.1 - p.turn_factor else v.1
      let vx := if b.x < (p.margin : ℚ) then vx + p.turn_factor else vx
      let vy := if b.y < (p.margin : ℚ) then vy + p.turn_factor else vy
      some (vx, vy)

/-- Speed clamp / zero-speed nudge (src/boids.rs lines 142-162): the scalar
`speed` is computed from the boid's pre-update velocity `(b.xv, b.yv)`, the
derived rescaling factor is applied to the force-updated velocity `v`, and
a zero speed with positive `min_speed` replaces `v` by the two random draws.
Returns the velocity together with the emitted scalar speed. -/
def speedClamp (sqrtf : ℚ → ℚ) (rnd : ℚ × ℚ) (p : Parameters) (b : Boid) (v : ℚ × ℚ) :
    (ℚ × ℚ) × ℚ :=
  let speed := sqrtf (b.xv * b.xv + b.yv * b.yv)
  if 0 < speed then
    if speed < p.min_speed then
      let factor := p.min_speed / speed
      ((v.1 * factor, v.2 * factor), p.min_speed)
    else if p.max_speed < speed then
      let factor := p.max_speed / speed
      ((v.1 * factor, v.2 * factor), p.max_speed)
    else (v, speed)
  else if 0 < p.min_speed then
    (rnd, p.min_speed)
  else (v, speed)

/-- One boid's complete next-state computation, the body of the
`par_iter().enumerate().map(..)` closure (src/boids.rs lines 62-173):
neighbor scan, force accumulation, boundary turn, speed clamp, position
integration and the `as u32` position clamp. The result is the emitted
`(next_x, next_y, next_xv, next_yv, speed)` tuple. -/
def updateBoid (sqrtf : ℚ → ℚ) (rnd : ℚ × ℚ) (p : Parameters) (grid : Grid)
    (boids : List Boid) (height width : ℕ) (boid_idx : ℕ) (b : Boid) :
    ℚ × ℚ × ℚ × ℚ × ℚ :=
  let acc := scanAll p grid boids boid_idx b
  let v1 := forceVelocity p b acc
  let v2 := boundaryTurn p height width b v1
  let vs := speedClamp sqrtf rnd p b v2
  let next_x := b.x + vs.1.1
  let next_y := b.y + vs.1.2
  let next_x := if width ≤ ratAsU32 next_x then ((u32wsub width 1 : ℕ) : ℚ) else next_x
  let next_y := if height ≤ ratAsU32 next_y then ((u32wsub height 1 : ℕ) : ℚ) else next_y
  (next_x, next_y, vs.1.1, vs.1.2, vs.2)

/-- The parallel map producing `new_boid_states`, sequentialised with an
explicit slot counter (src/boids.rs lines 59-175). -/
def computeStates (sqrtf : ℚ → ℚ) (rng : ℕ → ℚ × ℚ) (p : Parameters) (grid : Grid)
    (allBoids : List Boid) (height width : ℕ) : List Boid → ℕ → List (ℚ × ℚ × ℚ × ℚ × ℚ)
  | [], _ => []
  | b :: rest, i =>
      updateBoid sqrtf (rng i) p grid allBoids height width i b ::
        computeStates sqrtf rng p grid allBoids height width rest (i + 1)

/-- The commit loop writing `new_boid_states[i]` into boid slot `i`
(src/boids.rs lines 178-185): only position, velocity and scalar speed are
overwritten. -/
def commitBoid (b : Boid) (s : ℚ × ℚ × ℚ × ℚ × ℚ) : Boid :=
  { b with
    x := s.1
    y := s.2.1
    xv := s.2.2.1
    yv := s.2.2.2.1
    current_speed := s.2.2.2.2 }

/-- Mirrors `update_boids` (src/boids.rs lines 54-186): build the grid from
the snapshot, compute every boid's next state against that snapshot, then
commit all states. -/
def update_boids (sqrtf : ℚ → ℚ) (rng : ℕ → ℚ × ℚ) (boids : List Boid)
    (height width : ℕ) (p : Parameters) : List Boid :=
  let grid := populate_grid boids p.cell_size
  let states := computeStates sqrtf rng p grid boids height width boids 0
  List.zipWith commitBoid boids states

/-- Largest `r ≤ fuel` with `r * r ≤ n`, by structural descent on the fuel. -/
def natSqrtAux (n : ℕ) : ℕ → ℕ
  | 0 => 0
  | f + 1 => if (f + 1) * (f + 1) ≤ n then f + 1 else natSqrtAux n f

/-- Integer square root (largest `r` with `r * r ≤ n`), kernel-computable. -/
def natSqrt (n : ℕ) : ℕ := natSqrtAux n n

/-- Executable square root on `ℚ`, exact on perfect squares (of reduced
numerator and denominator) and `0` elsewhere; a concrete instance of the
`sqrtf` parameter used by witnesses and counterexamples. -/
def ratSqrt (q : ℚ) : ℚ :=
  if 0 ≤ q ∧ natSqrt q.num.toNat * natSqrt q.num.toNat = q.num.toNat
      ∧ natSqrt q.den * natSqrt q.den = q.den
  then (natSqrt q.num.toNat : ℚ) / (natSqrt q.den : ℚ)
  else 0

/-! Concrete inputs used by witnesses and counterexamples. Parameter records
list the fields in source order: `max_speed`, `min_speed`, `margin`,
`visible_range`, `protected_range`, `avoid_factor`, `matching_factor`,
`centering_factor`, `turn_factor`, `cell_size`, `draw_radius`. -/

/-- Wide speed band, zero margin. -/
def pX1 : Parameters := ⟨20, 0, 0, 5, 2, 1, 1, 1, 1, 10, 0⟩

/-- A boid moving left fast enough to leave the arena in one step. -/
def bX1 : Boid := ⟨7, 5, 50, -10, 0, 0, (1, 2, 3)⟩

/-- Speed band `[1/2, 3]`, margin `10`. -/
def pX2 : Parameters := ⟨3, 1/2, 10, 5, 2, 1, 1, 1, 1, 10, 0⟩

/-- A boid inside the left margin with unit-speed velocity. -/
def bX2 : Boid := ⟨0, 5, 50, 1, 0, 0, (0, 0, 0)⟩

/-- Speed band `[1/2, 3]`, margin `10`. -/
def pW3 : Parameters := ⟨3, 1/2, 10, 5, 2, 1, 1, 1, 1, 10, 0⟩

/-- An interior boid with unit-speed velocity. -/
def bW3 : Boid := ⟨0, 50, 50, 1, 0, 0, (0, 0, 0)⟩

/-- Speed band `[1, 3]`, zero margin. -/
def pW4 : Parameters := ⟨3, 1, 0, 5, 2, 1, 1, 1, 1, 10, 0⟩

/-- An interior boid with pre-update speed `1/2`, below `min_speed`. -/
def bW4 : Boid := ⟨0, 50, 50, 3/10, 4/10, 0, (0, 0, 0)⟩

/-- Protected range `2`, visible range `5`, cell size `22`. -/
def p5X : Parameters := ⟨3, 1/2, 10, 5, 2, 1, 1, 1, 1, 22, 0⟩

/-- First boid of the protected-range boundary pair. -/
def b5X : Boid := ⟨0, 10, 10, 0, 0, 0, (0, 0, 0)⟩

/-- Second boid of the pair, at distance exactly `protected_range`. -/
def o5X : Boid := ⟨1, 12, 10, 0, 0, 0, (0, 0, 0)⟩

/-- A boid at distance `1`, strictly inside the protected range of `b5X`. -/
def o5W : Boid := ⟨1, 11, 10, 0, 0, 0, (0, 0, 0)⟩

/-- Two boids in cell `(0, 0)` for the grid-lookup witness. -/
def b6W : Boid := ⟨0, 10, 10, 0, 0, 0, (0, 0, 0)⟩

/-- Second grid-lookup witness boid, also in cell `(0, 0)`. -/
def o6W : Boid := ⟨1, 12, 10, 0, 0, 0, (0, 0, 0)⟩

/-- Visible range `1`, protected range `1/2`: the diagonal candidate passes
the box filter yet fails both squared-distance tests. -/
def pX7 : Parameters := ⟨3, 1/2, 10, 1, 1/2, 1, 1, 1, 1, 10, 0⟩

/-- Scanning boid of the box-filter counterexample. -/
def bX7 : Boid := ⟨0, 10, 10, 0, 0, 0, (0, 0, 0)⟩

/-- Candidate at offset `(9/10, 9/10)`: inside the box, outside both radii. -/
def oX7 : Boid := ⟨1, 10 + 9/10, 10 + 9/10, 0, 0, 0, (0, 0, 0)⟩

/-- Visible range `1`, protected range `10`: an offset of `2` on one axis
fails the box filter while staying well inside the protected radius. -/
def p7W : Parameters := ⟨3, 1/2, 10, 1, 10, 1, 1, 1, 1, 10, 0⟩

/-- Scanning boid of the box-filter witness. -/
def b7W : Boid := ⟨0, 10, 10, 0, 0, 0, (0, 0, 0)⟩

/-- Candidate at offset `(2, 0)`: outside the box, inside the protected radius. -/
def o7W : Boid := ⟨1, 8, 10, 0, 0, 0, (0, 0, 0)⟩

/-- Parameters for the determinism witness. -/
def p8W : Parameters := ⟨3, 1/2, 10, 5, 2, 1, 1, 1, 1, 10, 0⟩

/-- A boid with pre-update speed `5` (a 3-4-5 velocity). -/
def b8W : Boid := ⟨0, 50, 50, 3, 4, 0, (0, 0, 0)⟩

/-- Margin `10`, inside both `100`-sized dimensions. -/
def p10W : Parameters := ⟨3, 1/2, 10, 5, 2, 1, 1, 1, 1, 10, 0⟩

/-- Margin `50`, larger than a height of `5`. -/
def p10X : Parameters := ⟨3, 1/2, 50, 5, 2, 1, 1, 1, 1, 10, 0⟩

/-- An arbitrary boid for the boundary-turn witnesses. -/
def b10W : Boid := ⟨0, 50, 50, 1, 1, 0, (0, 0, 0)⟩

theorem ratSqrt_nonneg (q : ℚ) : 0 ≤ ratSqrt q := by
  unfold ratSqrt
  split
  · exact div_nonneg (by positivity) (by positivity)
  · exact le_refl 0

/-! Association-list grid lemmas: lookup after insertion, and the
characterization of `populate_grid` lookups. -/

theorem gridGet_gridInsert (g : Grid) (k : ℕ × ℕ) (i : ℕ) (q : ℕ × ℕ) :
    gridGet (gridInsert g k i) q = if q = k then gridGet g k ++ [i] else gridGet g q := by
  induction g with
  | nil =>
      by_cases hq : q = k
      · subst hq; simp [gridInsert, gridGet]
      · have hkq : ¬k = q := fun h => hq h.symm
        simp [gridInsert, gridGet, hq, hkq]
  | cons hd tl ih =>
      obtain ⟨a, l⟩ := hd
      by_cases hak : a = k
      · subst hak
        by_cases hq : q = a
        · subst hq; simp [gridInsert, gridGet]
        · have haq : ¬a = q := fun h => hq h.symm
          simp [gridInsert, gridGet, hq, haq]
      · by_cases hq : q = k
        · subst hq
          have haq : ¬a = q := hak
          simp [gridInsert, gridGet, hak, haq, ih]
        · by_cases haq : a = q
          · subst haq
            simp [gridInsert, gridGet, hak, hq]
          · simp [gridInsert, gridGet, hak, haq, hq, ih]

theorem gridGet_populate_grid_aux (cs : ℚ) (k : ℕ × ℕ) :
    ∀ (l : List Boid) (n : ℕ) (g : Grid),
      gridGet (populate_grid_aux cs l n g) k =
        gridGet g k ++
          ((List.range l.length).filter
            (fun j => decide (cellOf cs ((l.getD j dB).x) ((l.getD j dB).y) = k))).map
            (fun j => n + j)
  | [], n, g => by simp [populate_grid_aux]
  | b :: rest, n, g => by
      rw [populate_grid_aux,
        gridGet_populate_grid_aux cs k rest (n + 1) (gridInsert g (cellOf cs b.x b.y) n),
        gridGet_gridInsert]
      have hlen : (b :: rest).length = rest.length + 1 := rfl
      rw [hlen, List.range_succ_eq_map, List.filter_cons]
      have hcomp :
          ((List.range rest.length).map Nat.succ).filter
              (fun j => decide (cellOf cs (((b :: rest).getD j dB).x) (((b :: rest).getD j dB).y) = k)) =
            ((List.range rest.length).filter
              (fun j => decide (cellOf cs ((rest.getD j dB).x) ((rest.getD j dB).y) = k))).map
              Nat.succ := by
        rw [List.filter_map]
        congr 1
      have hfun : ∀ (L : List ℕ),
          (L.map Nat.succ).map (fun j => n + j) = L.map (fun j => n + 1 + j) := by
        intro L
        rw [List.map_map]
        apply List.map_congr_left
        intro j _
        simp only [Function.comp_apply, Nat.succ_eq_add_one]
        omega
      by_cases hck : cellOf cs b.x b.y = k
      · have h0 : decide (cellOf cs (((b :: rest).getD 0 dB).x) (((b :: rest).getD 0 dB).y) = k) = true := by
          simp [List.getD_cons_zero, hck]
        rw [if_pos hck.symm, h0]
        simp only [if_true, List.map_cons, hcomp, hfun]
        rw [hck, List.append_assoc]
        simp [Nat.add_zero]
      · have h0 : decide (cellOf cs (((b :: rest).getD 0 dB).x) (((b :: rest).getD 0 dB).y) = k) = false := by
          simp [List.getD_cons_zero, hck]
        rw [if_neg (fun h => hck h.symm), h0]
        simp only [Bool.false_eq_true, if_false, hcomp, hfun]

theorem gridGet_populate_grid (bs : List Boid) (cs : ℚ) (k : ℕ × ℕ) :
    gridGet (populate_grid bs cs) k =
      (List.range bs.length).filter
        (fun j => decide (cellOf cs ((bs.getD j dB).x) ((bs.getD j dB).y) = k)) := by
  rw [populate_grid, gridGet_populate_grid_aux]
  have : (fun j => 0 + j) = (id : ℕ → ℕ) := funext fun j => by simp
  simp [gridGet, this]

/-! Indexing lemmas for the compute/commit pipeline of `update_boids`. -/

theorem computeStates_length (sqrtf : ℚ → ℚ) (rng : ℕ → ℚ × ℚ) (p : Parameters) (grid : Grid)
    (allBoids : List Boid) (height width : ℕ) :
    ∀ (l : List Boid) (n : ℕ),
      (computeStates sqrtf rng p grid allBoids height width l n).length = l.length
  | [], _ => rfl
  | _ :: rest, n => by
      simp [computeStates,
        computeStates_length sqrtf rng p grid allBoids height width rest (n + 1)]

theorem computeStates_getD (sqrtf : ℚ → ℚ) (rng : ℕ → ℚ × ℚ) (p : Parameters) (grid : Grid)
    (allBoids : List Boid) (height width : ℕ) :
    ∀ (l : List Boid) (n i : ℕ), i < l.length →
      (computeStates sqrtf rng p grid allBoids height width l n).getD i s0 =
        updateBoid sqrtf (rng (n + i)) p grid allBoids height width (n + i) (l.getD i dB)
  | [], _, i, hi => absurd hi (by simp)
  | b :: rest, n, 0, _ => by simp [computeStates]
  | b :: rest, n, i + 1, hi => by
      have hi' : i < rest.length := by simpa using hi
      have := computeStates_getD sqrtf rng p grid allBoids height width rest (n + 1) i hi'
      simp only [computeStates, List.getD_cons_succ, List.getD_cons_succ] at this ⊢
      rw [this]
      have harith : n + 1 + i = n + (i + 1) := by omega
      rw [harith]

theorem zipWith_commit_getD :
    ∀ (as : List Boid) (ss : List (ℚ × ℚ × ℚ × ℚ × ℚ)) (i : ℕ),
      i < as.length → i < ss.length →
      (List.zipWith commitBoid as ss).getD i dB = commitBoid (as.getD i dB) (ss.getD i s0)
  | [], _, i, hi, _ => absurd hi (by simp)
  | _ :: _, [], i, _, hi => absurd hi (by simp)
  | a :: as, s :: ss, 0, _, _ => by simp [List.zipWith]
  | a :: as, s :: ss, i + 1, hi, hi' => by
      have h1 : i < as.length := by simpa using hi
      have h2 : i < ss.length := by simpa using hi'
      simp only [List.zipWith, List.getD_cons_succ]
      exact zipWith_commit_getD as ss i h1 h2

theorem update_boids_length (sqrtf : ℚ → ℚ) (rng : ℕ → ℚ × ℚ) (bs : List Boid)
    (height width : ℕ) (p : Parameters) :
    (update_boids sqrtf rng bs height width p).length = bs.length := by
  rw [update_boids]
  simp [computeStates_length]

theorem update_boids_getD (sqrtf : ℚ → ℚ) (rng : ℕ → ℚ × ℚ) (bs : List Boid)
    (height width : ℕ) (p : Parameters) (i : ℕ) (hi : i < bs.length) :
    (update_boids sqrtf rng bs height width p).getD i dB =
      commitBoid (bs.getD i dB)
        (updateBoid sqrtf (rng i) p (populate_grid bs p.cell_size) bs height width i
          (bs.getD i dB)) := by
  rw [update_boids]
  have hlen : i < (computeStates sqrtf rng p (populate_grid bs p.cell_size) bs height width bs 0).length := by
    rw [computeStates_length]; exact hi
  rw [zipWith_commit_getD bs _ i hi hlen,
    computeStates_getD sqrtf rng p (populate_grid bs p.cell_size) bs height width bs 0 i hi]
  simp

/-! Speed-clamp analysis lemmas. -/

theorem updateBoid_xv_eq (sqrtf : ℚ → ℚ) (rnd : ℚ × ℚ) (p : Parameters) (grid : Grid)
    (bs : List Boid) (height width : ℕ) (i : ℕ) (b : Boid) :
    (updateBoid sqrtf rnd p grid bs height width i b).2.2.1 =
      (speedClamp sqrtf rnd p b
        (boundaryTurn p height width b (forceVelocity p b (scanAll p grid bs i b)))).1.1 := rfl

theorem updateBoid_yv_eq (sqrtf : ℚ → ℚ) (rnd : ℚ × ℚ) (p : Parameters) (grid : Grid)
    (bs : List Boid) (height width : ℕ) (i : ℕ) (b : Boid) :
    (updateBoid sqrtf rnd p grid bs height width i b).2.2.2.1 =
      (speedClamp sqrtf rnd p b
        (boundaryTurn p height width b (forceVelocity p b (scanAll p grid bs i b)))).1.2 := rfl

theorem updateBoid_speed_eq (sqrtf : ℚ → ℚ) (rnd : ℚ × ℚ) (p : Parameters) (grid : Grid)
    (bs : List Boid) (height width : ℕ) (i : ℕ) (b : Boid) :
    (updateBoid sqrtf rnd p grid bs height width i b).2.2.2.2 =
      (speedClamp sqrtf rnd p b
        (boundaryTurn p height width b (forceVelocity p b (scanAll p grid bs i b)))).2 := rfl

theorem speedClamp_snd_of_pos (sqrtf : ℚ → ℚ) (rnd : ℚ × ℚ) (p : Parameters) (b : Boid)
    (v : ℚ × ℚ) (hmax : p.min_speed ≤ p.max_speed)
    (hpos : 0 < sqrtf (b.xv * b.xv + b.yv * b.yv)) :
    (speedClamp sqrtf rnd p b v).2 =
      min (max (sqrtf (b.xv * b.xv + b.yv * b.yv)) p.min_speed) p.max_speed := by
  unfold speedClamp
  rw [if_pos hpos]
  by_cases h1 : sqrtf (b.xv * b.xv + b.yv * b.yv) < p.min_speed
  · rw [if_pos h1]
    simp only
    rw [max_eq_right (le_of_lt h1), min_eq_left hmax]
  · rw [if_neg h1]
    by_cases h2 : p.max_speed < sqrtf (b.xv * b.xv + b.yv * b.yv)
    · rw [if_pos h2]
      simp only
      rw [max_eq_left (not_lt.mp h1), min_eq_right (le_of_lt h2)]
    · rw [if_neg h2]
      simp only
      rw [max_eq_left (not_lt.mp h1), min_eq_left (not_lt.mp h2)]

theorem speedClamp_snd_bounds (sqrtf : ℚ → ℚ) (rnd : ℚ × ℚ) (p : Parameters) (b : Boid)
    (v : ℚ × ℚ) (hmin : 0 ≤ p.min_speed) (hmax : p.min_speed ≤ p.max_speed)
    (hs : 0 ≤ sqrtf (b.xv * b.xv + b.yv * b.yv)) :
    ((speedClamp sqrtf rnd p b v).2 = 0 → p.min_speed = 0) ∧
    ((speedClamp sqrtf rnd p b v).2 ≠ 0 →
      p.min_speed ≤ (speedClamp sqrtf rnd p b v).2 ∧
      (speedClamp sqrtf rnd p b v).2 ≤ p.max_speed) := by
  unfold speedClamp
  by_cases h0 : 0 < sqrtf (b.xv * b.xv + b.yv * b.yv)
  · rw [if_pos h0]
    by_cases h1 : sqrtf (b.xv * b.xv + b.yv * b.yv) < p.min_speed
    · rw [if_pos h1]
      exact ⟨fun h => h, fun _ => ⟨le_refl _, hmax⟩⟩
    · rw [if_neg h1]
      by_cases h2 : p.max_speed < sqrtf (b.xv * b.xv + b.yv * b.yv)
      · rw [if_pos h2]
        refine ⟨fun h => ?_, fun _ => ⟨hmax, le_refl _⟩⟩
        have hmz : p.max_speed = 0 := h
        exact le_antisymm (hmz ▸ hmax) hmin
      · rw [if_neg h2]
        refine ⟨fun h => ?_, fun _ => ⟨not_lt.mp h1, not_lt.mp h2⟩⟩
        have hzero : sqrtf (b.xv * b.xv + b.yv * b.yv) = 0 := h
        exact absurd h0 (by rw [hzero]; exact lt_irrefl 0)
  · rw [if_neg h0]
    have hz : sqrtf (b.xv * b.xv + b.yv * b.yv) = 0 := le_antisymm (not_lt.mp h0) hs
    by_cases hm : 0 < p.min_speed
    · rw [if_pos hm]
      exact ⟨fun h => h, fun _ => ⟨le_refl _, hmax⟩⟩
    · rw [if_neg hm]
      have : p.min_speed = 0 := le_antisymm (not_lt.mp hm) hmin
      exact ⟨fun _ => this, fun h => absurd hz h⟩

theorem speedClamp_rng_irrelevant (sqrtf : ℚ → ℚ) (r₁ r₂ : ℚ × ℚ) (p : Parameters) (b : Boid)
    (v : ℚ × ℚ) (hpos : 0 < sqrtf (b.xv * b.xv + b.yv * b.yv)) :
    speedClamp sqrtf r₁ p b v = speedClamp sqrtf r₂ p b v := by
  unfold speedClamp
  rw [if_pos hpos, if_pos hpos]

theorem speedClamp_min_branch (sqrtf : ℚ → ℚ) (rnd : ℚ × ℚ) (p : Parameters) (b : Boid)
    (v : ℚ × ℚ) (hpos : 0 < sqrtf (b.xv * b.xv + b.yv * b.yv))
    (hlt : sqrtf (b.xv * b.xv + b.yv * b.yv) < p.min_speed) :
    speedClamp sqrtf rnd p b v =
      ((v.1 * (p.min_speed / sqrtf (b.xv * b.xv + b.yv * b.yv)),
        v.2 * (p.min_speed / sqrtf (b.xv * b.xv + b.yv * b.yv))), p.min_speed) := by
  unfold speedClamp
  rw [if_pos hpos, if_pos hlt]

theorem speedClamp_max_branch (sqrtf : ℚ → ℚ) (rnd : ℚ × ℚ) (p : Parameters) (b : Boid)
    (v : ℚ × ℚ) (hmin : 0 ≤ p.min_speed) (hmax : p.min_speed ≤ p.max_speed)
    (hgt : p.max_speed < sqrtf (b.xv * b.xv + b.yv * b.yv)) :
    speedClamp sqrtf rnd p b v =
      ((v.1 * (p.max_speed / sqrtf (b.xv * b.xv + b.yv * b.yv)),
        v.2 * (p.max_speed / sqrtf (b.xv * b.xv + b.yv * b.yv))), p.max_speed) := by
  have hpos : 0 < sqrtf (b.xv * b.xv + b.yv * b.yv) :=
    lt_of_le_of_lt (le_trans hmin hmax) hgt
  have hnlt : ¬sqrtf (b.xv * b.xv + b.yv * b.yv) < p.min_speed :=
    not_lt.mpr (le_trans hmax (le_of_lt hgt))
  unfold speedClamp
  rw [if_pos hpos, if_neg hnlt, if_pos hgt]

theorem speedClamp_mid_branch (sqrtf : ℚ → ℚ) (rnd : ℚ × ℚ) (p : Parameters) (b : Boid)
    (v : ℚ × ℚ) (hpos : 0 < sqrtf (b.xv * b.xv + b.yv * b.yv))
    (h1 : p.min_speed ≤ sqrtf (b.xv * b.xv + b.yv * b.yv))
    (h2 : sqrtf (b.xv * b.xv + b.yv * b.yv) ≤ p.max_speed) :
    speedClamp sqrtf rnd p b v = (v, sqrtf (b.xv * b.xv + b.yv * b.yv)) := by
  unfold speedClamp
  rw [if_pos hpos, if_neg (not_lt.mpr h1), if_neg (not_lt.mpr h2)]

theorem updateBoid_rng_irrelevant (sqrtf : ℚ → ℚ) (r₁ r₂ : ℚ × ℚ) (p : Parameters)
    (grid : Grid) (bs : List Boid) (height width : ℕ) (i : ℕ) (b : Boid)
    (hpos : 0 < sqrtf (b.xv * b.xv + b.yv * b.yv)) :
    updateBoid sqrtf r₁ p grid bs height width i b =
      updateBoid sqrtf r₂ p grid bs height width i b := by
  simp only [updateBoid]
  rw [speedClamp_rng_irrelevant sqrtf r₁ r₂ p b
    (boundaryTurn p height width b (forceVelocity p b (scanAll p grid bs i b))) hpos]

theorem computeStates_rng_irrelevant (sqrtf : ℚ → ℚ) (rng₁ rng₂ : ℕ → ℚ × ℚ)
    (p : Parameters) (grid : Grid) (allBoids : List Boid) (height width : ℕ) :
    ∀ (l : List Boid) (n : ℕ), (∀ b ∈ l, 0 < sqrtf (b.xv * b.xv + b.yv * b.yv)) →
      computeStates sqrtf rng₁ p grid allBoids height width l n =
        computeStates sqrtf rng₂ p grid allBoids height width l n
  | [], _, _ => rfl
  | b :: rest, n, h => by
      simp only [computeStates]
      rw [updateBoid_rng_irrelevant sqrtf (rng₁ n) (rng₂ n) p grid allBoids height width n b
        (h b (by simp))]
      rw [computeStates_rng_irrelevant sqrtf rng₁ rng₂ p grid allBoids height width rest (n + 1)
        (fun b' hb' => h b' (by simp [hb']))]

theorem getD_of_length_le {α : Type} (l : List α) (n : ℕ) (d : α) (h : l.length ≤ n) :
    l.getD n d = d := by
  simp [List.getD_eq_getElem?_getD, List.getElem?_eq_none h]

theorem u32wsub_of_le (a b : ℕ) (hle : b ≤ a) (ha : a < 2 ^ 32) : u32wsub a b = a - b := by
  unfold u32wsub
  have h1 : (0 : ℤ) ≤ (a : ℤ) - (b : ℤ) := by omega
  have h2 : (a : ℤ) - (b : ℤ) < 2 ^ 32 := by omega
  rw [Int.emod_eq_of_lt h1 h2]
  omega

/-! Claim theorems. The local reducibility attributes re-enable kernel
evaluation of the (deliberately sealed) rational arithmetic operations, so
that concrete runs of the embedded code can be checked by `decide`. -/

section ClaimTheorems

attribute [local semireducible] Rat.mul Rat.add Rat.sub Rat.inv

/-- Claim C1 (code bug): the position clamp of `update_boids` detects
out-of-range coordinates through the `next_x as u32 >= width` cast, and the
`f32 as u32` cast saturates negative values to `0`, so a would-be negative
coordinate is NOT mapped to the lower bound: on a single boid at `x = 5` with
velocity `(-10, 0)` (margin `0`, limits `[0, 20]`, `100`-sized arena) one
update emits position `x = -5 < 0`, violating the claimed bounds invariant
and the spec's adopted sign-aware `< 0` clamp semantics. -/
theorem c1_negative_position_escapes_clamp :
    update_boids ratSqrt (fun _ => (0, 0)) [bX1] 100 100 pX1 =
      [⟨7, -5, 50, -10, 0, 10, (1, 2, 3)⟩] ∧
    ((update_boids ratSqrt (fun _ => (0, 0)) [bX1] 100 100 pX1).getD 0 dB).x < 0 := by
  exact ⟨by decide, by decide⟩

/-- Claim C2, counterexample: a single boid at `x = 5` (inside margin `10`)
with velocity `(1, 0)` and band `[1/2, 3]` has pre-update speed `1` (so this
is not the exempted random-nudge frame), but after one update the stored
velocity is `(2, 0)` while the stored speed is `1`: the square of the stored
speed differs from the squared magnitude of the stored velocity, so the
stored speed is not the magnitude of the stored velocity. -/
theorem c2_speed_differs_from_stored_velocity_magnitude :
    ratSqrt (bX2.xv * bX2.xv + bX2.yv * bX2.yv) ≠ 0 ∧
    update_boids ratSqrt (fun _ => (0, 0)) [bX2] 100 100 pX2 =
      [⟨0, 7, 50, 2, 0, 1, (0, 0, 0)⟩] ∧
    ((update_boids ratSqrt (fun _ => (0, 0)) [bX2] 100 100 pX2).getD 0 dB).current_speed *
        ((update_boids ratSqrt (fun _ => (0, 0)) [bX2] 100 100 pX2).getD 0 dB).current_speed ≠
      ((update_boids ratSqrt (fun _ => (0, 0)) [bX2] 100 100 pX2).getD 0 dB).xv *
          ((update_boids ratSqrt (fun _ => (0, 0)) [bX2] 100 100 pX2).getD 0 dB).xv +
        ((update_boids ratSqrt (fun _ => (0, 0)) [bX2] 100 100 pX2).getD 0 dB).yv *
          ((update_boids ratSqrt (fun _ => (0, 0)) [bX2] 100 100 pX2).getD 0 dB).yv := by
  exact ⟨by decide, by decide, by decide⟩

/-- Claim C2, amended: after one update, a boid's stored scalar speed equals
the magnitude of its PRE-update velocity clamped into
`[min_speed, max_speed]` (when that pre-update speed is positive and the band
is ordered), not the magnitude of the stored post-update velocity. -/
theorem c2_speed_is_clamped_pre_update_magnitude (sqrtf : ℚ → ℚ) (rng : ℕ → ℚ × ℚ)
    (bs : List Boid) (height width : ℕ) (p : Parameters) (i : ℕ) (hi : i < bs.length)
    (hmax : p.min_speed ≤ p.max_speed)
    (hpos : 0 < sqrtf ((bs.getD i dB).xv * (bs.getD i dB).xv +
      (bs.getD i dB).yv * (bs.getD i dB).yv)) :
    ((update_boids sqrtf rng bs height width p).getD i dB).current_speed =
      min (max (sqrtf ((bs.getD i dB).xv * (bs.getD i dB).xv +
        (bs.getD i dB).yv * (bs.getD i dB).yv)) p.min_speed) p.max_speed := by
  rw [update_boids_getD sqrtf rng bs height width p i hi]
  have hkey : (commitBoid (bs.getD i dB)
      (updateBoid sqrtf (rng i) p (populate_grid bs p.cell_size) bs height width i
        (bs.getD i dB))).current_speed =
      (speedClamp sqrtf (rng i) p (bs.getD i dB)
        (boundaryTurn p height width (bs.getD i dB)
          (forceVelocity p (bs.getD i dB)
            (scanAll p (populate_grid bs p.cell_size) bs i (bs.getD i dB))))).2 := rfl
  rw [hkey]
  exact speedClamp_snd_of_pos sqrtf (rng i) p (bs.getD i dB) _ hmax hpos

/-- Witness for the amended C2 theorem at a concrete input. -/
theorem c2_speed_is_clamped_pre_update_magnitude_witness :
    ((update_boids ratSqrt (fun _ => (0, 0)) [bX2] 100 100 pX2).getD 0 dB).current_speed =
      min (max (ratSqrt (([bX2].getD 0 dB).xv * ([bX2].getD 0 dB).xv +
        ([bX2].getD 0 dB).yv * ([bX2].getD 0 dB).yv)) pX2.min_speed) pX2.max_speed :=
  c2_speed_is_clamped_pre_update_magnitude ratSqrt (fun _ => (0, 0)) [bX2] 100 100 pX2 0
    (by decide) (by decide) (by decide)

/-- Claim C3: under `0 ≤ min_speed ≤ max_speed` (and a square root that is
non-negative on the boid's squared pre-update speed), the speed emitted by
one update is `0` only if `min_speed = 0`, and otherwise lies in
`[min_speed, max_speed]`. -/
theorem c3_speed_floor_invariant (sqrtf : ℚ → ℚ) (rng : ℕ → ℚ × ℚ) (bs : List Boid)
    (height width : ℕ) (p : Parameters) (i : ℕ) (hi : i < bs.length)
    (hmin : 0 ≤ p.min_speed) (hmax : p.min_speed ≤ p.max_speed)
    (hs : 0 ≤ sqrtf ((bs.getD i dB).xv * (bs.getD i dB).xv +
      (bs.getD i dB).yv * (bs.getD i dB).yv)) :
    (((update_boids sqrtf rng bs height width p).getD i dB).current_speed = 0 →
      p.min_speed = 0) ∧
    (((update_boids sqrtf rng bs height width p).getD i dB).current_speed ≠ 0 →
      p.min_speed ≤ ((update_boids sqrtf rng bs height width p).getD i dB).current_speed ∧
      ((update_boids sqrtf rng bs height width p).getD i dB).current_speed ≤ p.max_speed) := by
  rw [update_boids_getD sqrtf rng bs height width p i hi]
  have hkey : (commitBoid (bs.getD i dB)
      (updateBoid sqrtf (rng i) p (populate_grid bs p.cell_size) bs height width i
        (bs.getD i dB))).current_speed =
      (speedClamp sqrtf (rng i) p (bs.getD i dB)
        (boundaryTurn p height width (bs.getD i dB)
          (forceVelocity p (bs.getD i dB)
            (scanAll p (populate_grid bs p.cell_size) bs i (bs.getD i dB))))).2 := rfl
  rw [hkey]
  exact speedClamp_snd_bounds sqrtf (rng i) p (bs.getD i dB) _ hmin hmax hs

/-- Witness for the C3 theorem at a concrete input. -/
theorem c3_speed_floor_invariant_witness :
    (((update_boids ratSqrt (fun _ => (0, 0)) [bW3] 100 100 pW3).getD 0 dB).current_speed = 0 →
      pW3.min_speed = 0) ∧
    (((update_boids ratSqrt (fun _ => (0, 0)) [bW3] 100 100 pW3).getD 0 dB).current_speed ≠ 0 →
      pW3.min_speed ≤
        ((update_boids ratSqrt (fun _ => (0, 0)) [bW3] 100 100 pW3).getD 0 dB).current_speed ∧
      ((update_boids ratSqrt (fun _ => (0, 0)) [bW3] 100 100 pW3).getD 0 dB).current_speed ≤
        pW3.max_speed) :=
  c3_speed_floor_invariant ratSqrt (fun _ => (0, 0)) [bW3] 100 100 pW3 0
    (by decide) (by decide) (by decide) (by decide)

/-- Claim C4: the scalar speed selecting the clamp branch is computed from the
boid's current (pre-force) velocity `(b.xv, b.yv)` and is the speed emitted
when within limits, while the min/max rescaling factor derived from it is
applied to the force-and-boundary-updated next velocity: in each of the three
branches the emitted velocity is the force-updated velocity times the factor
(`min_speed/s`, `max_speed/s`, or `1`), with `s` taken from the pre-force
velocity. -/
theorem c4_clamp_branch_from_current_velocity (sqrtf : ℚ → ℚ) (rnd : ℚ × ℚ) (p : Parameters)
    (grid : Grid) (bs : List Boid) (height width : ℕ) (i : ℕ) (b : Boid)
    (hmin : 0 ≤ p.min_speed) (hmax : p.min_speed ≤ p.max_speed) :
    (0 < sqrtf (b.xv * b.xv + b.yv * b.yv) →
      sqrtf (b.xv * b.xv + b.yv * b.yv) < p.min_speed →
      (updateBoid sqrtf rnd p grid bs height width i b).2.2.1 =
          (boundaryTurn p height width b (forceVelocity p b (scanAll p grid bs i b))).1 *
            (p.min_speed / sqrtf (b.xv * b.xv + b.yv * b.yv)) ∧
        (updateBoid sqrtf rnd p grid bs height width i b).2.2.2.1 =
          (boundaryTurn p height width b (forceVelocity p b (scanAll p grid bs i b))).2 *
            (p.min_speed / sqrtf (b.xv * b.xv + b.yv * b.yv)) ∧
        (updateBoid sqrtf rnd p grid bs height width i b).2.2.2.2 = p.min_speed) ∧
    (p.max_speed < sqrtf (b.xv * b.xv + b.yv * b.yv) →
      (updateBoid sqrtf rnd p grid bs height width i b).2.2.1 =
          (boundaryTurn p height width b (forceVelocity p b (scanAll p grid bs i b))).1 *
            (p.max_speed / sqrtf (b.xv * b.xv + b.yv * b.yv)) ∧
        (updateBoid sqrtf rnd p grid bs height width i b).2.2.2.1 =
          (boundaryTurn p height width b (forceVelocity p b (scanAll p grid bs i b))).2 *
            (p.max_speed / sqrtf (b.xv * b.xv + b.yv * b.yv)) ∧
        (updateBoid sqrtf rnd p grid bs height width i b).2.2.2.2 = p.max_speed) ∧
    (0 < sqrtf (b.xv * b.xv + b.yv * b.yv) →
      p.min_speed ≤ sqrtf (b.xv * b.xv + b.yv * b.yv) →
      sqrtf (b.xv * b.xv + b.yv * b.yv) ≤ p.max_speed →
      (updateBoid sqrtf rnd p grid bs height width i b).2.2.1 =
          (boundaryTurn p height width b (forceVelocity p b (scanAll p grid bs i b))).1 ∧
        (updateBoid sqrtf rnd p grid bs height width i b).2.2.2.1 =
          (boundaryTurn p height width b (forceVelocity p b (scanAll p grid bs i b))).2 ∧
        (updateBoid sqrtf rnd p grid bs height width i b).2.2.2.2 =
          sqrtf (b.xv * b.xv + b.yv * b.yv)) := by
  refine ⟨fun h1 h2 => ?_, fun h2 => ?_, fun h0 h1 h2 => ?_⟩
  · rw [updateBoid_xv_eq, updateBoid_yv_eq, updateBoid_speed_eq,
      speedClamp_min_branch sqrtf rnd p b _ h1 h2]
    exact ⟨rfl, rfl, rfl⟩
  · rw [updateBoid_xv_eq, updateBoid_yv_eq, updateBoid_speed_eq,
      speedClamp_max_branch sqrtf rnd p b _ hmin hmax h2]
    exact ⟨rfl, rfl, rfl⟩
  · rw [updateBoid_xv_eq, updateBoid_yv_eq, updateBoid_speed_eq,
      speedClamp_mid_branch sqrtf rnd p b _ h0 h1 h2]
    exact ⟨rfl, rfl, rfl⟩

/-- Witness for the C4 theorem: a boid with pre-force speed `1/2 < min_speed`
takes the min-speed branch, and the factor `2` multiplies the force-updated
velocity. -/
theorem c4_clamp_branch_from_current_velocity_witness :
    0 < ratSqrt (bW4.xv * bW4.xv + bW4.yv * bW4.yv) ∧
    ratSqrt (bW4.xv * bW4.xv + bW4.yv * bW4.yv) < pW4.min_speed ∧
    ((updateBoid ratSqrt (0, 0) pW4 (populate_grid [bW4] pW4.cell_size) [bW4] 100 100 0
        bW4).2.2.1 =
      (boundaryTurn pW4 100 100 bW4
          (forceVelocity pW4 bW4
            (scanAll pW4 (populate_grid [bW4] pW4.cell_size) [bW4] 0 bW4))).1 *
        (pW4.min_speed / ratSqrt (bW4.xv * bW4.xv + bW4.yv * bW4.yv)) ∧
      (updateBoid ratSqrt (0, 0) pW4 (populate_grid [bW4] pW4.cell_size) [bW4] 100 100 0
          bW4).2.2.2.1 =
        (boundaryTurn pW4 100 100 bW4
            (forceVelocity pW4 bW4
              (scanAll pW4 (populate_grid [bW4] pW4.cell_size) [bW4] 0 bW4))).2 *
          (pW4.min_speed / ratSqrt (bW4.xv * bW4.xv + bW4.yv * bW4.yv)) ∧
      (updateBoid ratSqrt (0, 0) pW4 (populate_grid [bW4] pW4.cell_size) [bW4] 100 100 0
          bW4).2.2.2.2 = pW4.min_speed) :=
  ⟨by decide, by decide,
    (c4_clamp_branch_from_current_velocity ratSqrt (0, 0) pW4
      (populate_grid [bW4] pW4.cell_size) [bW4] 100 100 0 bW4 (by decide) (by decide)).1
      (by decide) (by decide)⟩

/-- Claim C5, counterexample: two boids at mutual distance exactly
`protected_range` (same grid cell, offsets far below `visible_range`) each
accumulate a ZERO separation vector, because the code's test
`squared_distance < protected_range * protected_range` is strict: the claim's
"distance less than or equal to protected_range" fails at equality. -/
theorem c5_zero_separation_at_protected_range_distance :
    (b5X.x - o5X.x) * (b5X.x - o5X.x) + (b5X.y - o5X.y) * (b5X.y - o5X.y) =
      p5X.protected_range * p5X.protected_range ∧
    |b5X.x - o5X.x| < p5X.visible_range ∧ |b5X.y - o5X.y| < p5X.visible_range ∧
    cellOf p5X.cell_size b5X.x b5X.y = cellOf p5X.cell_size o5X.x o5X.y ∧
    (scanAll p5X (populate_grid [b5X, o5X] p5X.cell_size) [b5X, o5X] 0 b5X).close_dx = 0 ∧
    (scanAll p5X (populate_grid [b5X, o5X] p5X.cell_size) [b5X, o5X] 0 b5X).close_dy = 0 ∧
    (scanAll p5X (populate_grid [b5X, o5X] p5X.cell_size) [b5X, o5X] 1 o5X).close_dx = 0 ∧
    (scanAll p5X (populate_grid [b5X, o5X] p5X.cell_size) [b5X, o5X] 1 o5X).close_dy = 0 := by
  exact ⟨by decide, by decide, by decide, by decide, by decide, by decide, by decide, by decide⟩

/-- Claim C5, amended: when the squared distance is STRICTLY below
`protected_range` squared, the per-axis offsets pass the box filter, and the
two positions are distinct, the scan's processing of that candidate adds
exactly the non-zero offset `this.position - other.position` (pointing away
from the other boid) to the separation accumulator. -/
theorem c5_close_contribution_strictly_inside (p : Parameters) (b other : Boid) (acc : ScanAcc)
    (hbx : |b.x - other.x| < p.visible_range) (hby : |b.y - other.y| < p.visible_range)
    (hprot : (b.x - other.x) * (b.x - other.x) + (b.y - other.y) * (b.y - other.y) <
      p.protected_range * p.protected_range)
    (hne : (b.x, b.y) ≠ (other.x, other.y)) :
    scanStep p b acc other =
      { acc with
        close_dx := acc.close_dx + (b.x - other.x)
        close_dy := acc.close_dy + (b.y - other.y) } ∧
    (b.x - other.x, b.y - other.y) ≠ ((0 : ℚ), (0 : ℚ)) := by
  constructor
  · simp only [scanStep]
    rw [if_pos ⟨hbx, hby⟩, if_pos hprot]
  · intro h
    apply hne
    have h1 : b.x - other.x = 0 := congrArg Prod.fst h
    have h2 : b.y - other.y = 0 := congrArg Prod.snd h
    have hx : b.x = other.x := by linarith
    have hy : b.y = other.y := by linarith
    rw [hx, hy]

/-- Witness for the amended C5 theorem: distance `1`, strictly inside the
protected range `2`. -/
theorem c5_close_contribution_strictly_inside_witness :
    scanStep p5X b5X accInit o5W =
      { accInit with
        close_dx := accInit.close_dx + (b5X.x - o5W.x)
        close_dy := accInit.close_dy + (b5X.y - o5W.y) } ∧
    (b5X.x - o5W.x, b5X.y - o5W.y) ≠ ((0 : ℚ), (0 : ℚ)) :=
  c5_close_contribution_strictly_inside p5X b5X o5W accInit
    (by decide) (by decide) (by decide) (by decide)

/-- Claim C6: for a snapshot with non-negative positions and a positive cell
size, looking up any cell key in the grid built by `populate_grid` yields
exactly the slot indices of the boids whose `(floor(x/cell_size),
floor(y/cell_size))` equals that key, listed in slot order (as a filter of
`List.range`, which also shows each slot index lands in exactly one cell). -/
theorem c6_grid_lookup_characterization (bs : List Boid) (cs : ℚ) (hcs : 0 < cs)
    (hpos : ∀ b ∈ bs, 0 ≤ b.x ∧ 0 ≤ b.y) :
    ∀ k : ℕ × ℕ,
      gridGet (populate_grid bs cs) k =
        (List.range bs.length).filter
          (fun i => decide (⌊(bs.getD i dB).x / cs⌋ = (k.1 : ℤ) ∧
            ⌊(bs.getD i dB).y / cs⌋ = (k.2 : ℤ))) := by
  intro k
  rw [gridGet_populate_grid]
  apply List.filter_congr
  intro i hi
  have hlen : i < bs.length := List.mem_range.mp hi
  have hmem : bs.getD i dB ∈ bs := by
    rw [List.getD_eq_getElem bs dB hlen]
    exact List.getElem_mem hlen
  obtain ⟨hx, hy⟩ := hpos _ hmem
  have hfx : (0 : ℤ) ≤ ⌊(bs.getD i dB).x / cs⌋ := Int.floor_nonneg.mpr (by positivity)
  have hfy : (0 : ℤ) ≤ ⌊(bs.getD i dB).y / cs⌋ := Int.floor_nonneg.mpr (by positivity)
  rw [decide_eq_decide]
  simp only [cellOf, Prod.ext_iff]
  constructor
  · rintro ⟨h1, h2⟩
    exact ⟨by omega, by omega⟩
  · rintro ⟨h1, h2⟩
    exact ⟨by omega, by omega⟩

/-- Witness for the C6 theorem: two boids in cell `(0, 0)` with cell size
`22`, looked up at key `(0, 0)`. -/
theorem c6_grid_lookup_characterization_witness :
    gridGet (populate_grid [b6W, o6W] 22) (0, 0) =
      (List.range [b6W, o6W].length).filter
        (fun i => decide (⌊([b6W, o6W].getD i dB).x / 22⌋ = (0 : ℤ) ∧
          ⌊([b6W, o6W].getD i dB).y / 22⌋ = (0 : ℤ))) :=
  c6_grid_lookup_characterization [b6W, o6W] 22 (by decide) (by decide) (0, 0)

/-- Claim C7, counterexample: passing the box pre-filter is NOT sufficient
for contributing: a candidate at offset `(9/10, 9/10)` with visible range `1`
passes both per-axis tests yet leaves every accumulator unchanged (its
squared distance `162/100` fails both radius tests), so "contributes if and
only if it passes the box pre-filter" is false in the `if` direction. -/
theorem c7_box_pass_without_contribution :
    (|bX7.x - oX7.x| < pX7.visible_range ∧ |bX7.y - oX7.y| < pX7.visible_range) ∧
    scanStep pX7 bX7 accInit oX7 = accInit := by
  exact ⟨by decide, by decide⟩

/-- Claim C7, amended: the box pre-filter is necessary and applied first: a
candidate failing it contributes nothing to any accumulator, even when its
squared distance would pass a radius test (relevant when `protected_range`
exceeds `visible_range`). -/
theorem c7_box_filter_necessary (p : Parameters) (b other : Boid) (acc : ScanAcc)
    (hbox : ¬(|b.x - other.x| < p.visible_range ∧ |b.y - other.y| < p.visible_range)) :
    scanStep p b acc other = acc := by
  simp only [scanStep]
  rw [if_neg hbox]

/-- Witness for the amended C7 theorem: offset `(2, 0)` fails the box filter
(visible range `1`) while its squared distance `4` is strictly inside the
protected radius `10`, and nothing is accumulated. -/
theorem c7_box_filter_necessary_witness :
    ¬(|b7W.x - o7W.x| < p7W.visible_range ∧ |b7W.y - o7W.y| < p7W.visible_range) ∧
    (b7W.x - o7W.x) * (b7W.x - o7W.x) + (b7W.y - o7W.y) * (b7W.y - o7W.y) <
      p7W.protected_range * p7W.protected_range ∧
    scanStep p7W b7W accInit o7W = accInit :=
  ⟨by decide, by decide, c7_box_filter_necessary p7W b7W o7W accInit (by decide)⟩

/-- Claim C8: in the sequential model with an explicit per-slot random oracle
(the fixed-seed, single-threaded reading of the claim), the update is a pure
function of snapshot and parameters; in particular, when every boid's
pre-update speed is positive the random oracle is never consulted, so two
runs with arbitrary different oracles coincide. -/
theorem c8_update_rng_independent (sqrtf : ℚ → ℚ) (rng₁ rng₂ : ℕ → ℚ × ℚ) (bs : List Boid)
    (height width : ℕ) (p : Parameters)
    (hnz : ∀ b ∈ bs, 0 < sqrtf (b.xv * b.xv + b.yv * b.yv)) :
    update_boids sqrtf rng₁ bs height width p = update_boids sqrtf rng₂ bs height width p := by
  simp only [update_boids]
  rw [computeStates_rng_irrelevant sqrtf rng₁ rng₂ p (populate_grid bs p.cell_size) bs
    height width bs 0 hnz]

/-- Witness for the C8 theorem: one boid with 3-4-5 velocity (speed `5 > 0`)
under two different random oracles. -/
theorem c8_update_rng_independent_witness :
    update_boids ratSqrt (fun _ => (1, 2)) [b8W] 100 100 p8W =
      update_boids ratSqrt (fun _ => (7, 9)) [b8W] 100 100 p8W :=
  c8_update_rng_independent ratSqrt (fun _ => (1, 2)) (fun _ => (7, 9)) [b8W] 100 100 p8W
    (by decide)

/-- Claim C9: one update changes only position, velocity and scalar speed:
the boid count is unchanged and every slot keeps its `id` and `colour`. -/
theorem c9_update_preserves_identity_fields (sqrtf : ℚ → ℚ) (rng : ℕ → ℚ × ℚ)
    (bs : List Boid) (height width : ℕ) (p : Parameters) :
    (update_boids sqrtf rng bs height width p).length = bs.length ∧
    ∀ i : ℕ,
      ((update_boids sqrtf rng bs height width p).getD i dB).id = (bs.getD i dB).id ∧
      ((update_boids sqrtf rng bs height width p).getD i dB).colour =
        (bs.getD i dB).colour := by
  refine ⟨update_boids_length sqrtf rng bs height width p, fun i => ?_⟩
  by_cases hi : i < bs.length
  · rw [update_boids_getD sqrtf rng bs height width p i hi]
    exact ⟨rfl, rfl⟩
  · have h1 : bs.length ≤ i := not_lt.mp hi
    have h2 : (update_boids sqrtf rng bs height width p).length ≤ i := by
      rw [update_boids_length]
      exact h1
    rw [getD_of_length_le _ _ _ h2, getD_of_length_le _ _ _ h1]
    exact ⟨rfl, rfl⟩

/-- Claim C10: the boundary-turning step's `u32` subtractions
`height - margin` and `width - margin` make the step total exactly under
`margin ≤ width` and `margin ≤ height` (for genuine `u32` dimensions): under
the precondition the overflow-checked step succeeds and agrees with the
wrapping-semantics step used in `update_boids`, and when either dimension is
below the margin the checked step underflows (the modelled panic). -/
theorem c10_boundary_turn_margin_totality (p : Parameters) (height width : ℕ) (b : Boid)
    (v : ℚ × ℚ) (hh : height < 2 ^ 32) (hw : width < 2 ^ 32) :
    (p.margin ≤ width → p.margin ≤ height →
      boundaryTurnChecked p height width b v = some (boundaryTurn p height width b v)) ∧
    ((height < p.margin ∨ width < p.margin) →
      boundaryTurnChecked p height width b v = none) := by
  constructor
  · intro hwm hhm
    unfold boundaryTurnChecked boundaryTurn u32csub
    rw [if_pos hhm, if_pos hwm, u32wsub_of_le height p.margin hhm hh,
      u32wsub_of_le width p.margin hwm hw]
  · intro hor
    unfold boundaryTurnChecked u32csub
    rcases hor with h | h
    · rw [if_neg (by omega)]
    · by_cases hmh : p.margin ≤ height
      · rw [if_pos hmh, if_neg (by omega)]
      · rw [if_neg hmh]

/-- Witness for the C10 theorem: margin `10` inside a `100 x 100` arena gives
a defined boundary turn, margin `50` with height `5` underflows. -/
theorem c10_boundary_turn_margin_totality_witness :
    boundaryTurnChecked p10W 100 100 b10W (0, 0) =
      some (boundaryTurn p10W 100 100 b10W (0, 0)) ∧
    boundaryTurnChecked p10X 5 100 b10W (0, 0) = none :=
  ⟨(c10_boundary_turn_margin_totality p10W 100 100 b10W (0, 0) (by decide) (by decide)).1
      (by decide) (by decide),
    (c10_boundary_turn_margin_totality p10X 5 100 b10W (0, 0) (by decide) (by decide)).2
      (Or.inl (by decide))⟩

end ClaimTheorems
